import Mathlib

/-!
# cob_voltage_control: emergency-stop supervisor, sensor decoder, battery classifier

Shallow embedding of `cob_voltage_control/ros/src/cob_voltage_control_ros.cpp`.

* The class `cob_voltage_control_ros` becomes a record of the members its methods read or
  write; every method becomes a function from the record to the record.
* A sensor message carries two parallel arrays (`uri[i]`, `state[i]` / `value[i]`); a message
  is embedded as the list of its index-wise pairs, in array order.
* `double` fields are read over exact rationals; they are only copied and compared.
* `int EM_stop_status_` is an `Int`. The only values the methods ever store in it are
  0, 1 and 2.
-/

namespace cob_voltage_control

/-! ## Data model -/

/-- The three fields of `cob_msgs::EmergencyStopState` that the node fills in. -/
structure EmergencyStopState where
  emergency_button_stop : Bool
  scanner_stop : Bool
  emergency_state : Int
deriving DecidableEq

/-- The three fields of `cob_msgs::PowerState` that the node publishes. -/
structure PowerState where
  voltage : ℚ
  current : ℚ
  relative_remaining_capacity : ℚ
deriving DecidableEq

/-- Class `cob_voltage_control_config`: the six startup options. -/
structure cob_voltage_control_config where
  max_voltage : ℚ
  min_voltage : ℚ
  max_voltage_res : ℚ
  num_voltage_port : Int
  num_em_stop_port : Int
  num_scanner_em_port : Int
deriving DecidableEq

/-- Class `cob_voltage_control_data`: the outgoing messages and the two raw analog inputs. -/
structure cob_voltage_control_data where
  out_pub_power_state_ : PowerState
  out_pub_em_stop_state_ : EmergencyStopState
  out_pub_current_ : ℚ
  out_pub_voltage_ : ℚ
  in_phidget_voltage : ℚ
  in_phidget_current : ℚ
deriving DecidableEq

/-- Class `cob_voltage_control_ros`: the members that the methods read or write. -/
structure cob_voltage_control_ros where
  EM_stop_status_ : Int
  component_data_ : cob_voltage_control_data
  component_config_ : cob_voltage_control_config
  last_rear_em_state : Bool
  last_front_em_state : Bool
deriving DecidableEq

/-- One entry of a `cob_phidgets::DigitalSensor` message: `uri[i]` with `state[i]`. -/
structure DigitalReading where
  uri : String
  state : Int
deriving DecidableEq

/-- One entry of a `cob_phidgets::AnalogSensor` message: `uri[i]` with `value[i]`. -/
structure AnalogReading where
  uri : String
  value : ℚ
deriving DecidableEq

/-- Enumerator `ST_EM_FREE = 0` of the class. -/
def ST_EM_FREE : Int := 0

/-- Enumerator `ST_EM_STOP = 1` of the class. -/
def ST_EM_STOP : Int := 1

/-- Enumerator `ST_EM_CONFIRMED = 2` of the class. -/
def ST_EM_CONFIRMED : Int := 2

/-- Modelled from the spec: the constant `EM_msg.EMFREE` is declared in the message header
`cob_msgs/EmergencyStopState.h`, which is not among the sources. Section 9 says the state
machine reuses the message's embedded enum constants as its states, and section 4.3 that the
numeric encoding of FREE is zero, so it is the class enumerator of the same state. -/
def EMFREE : Int := ST_EM_FREE

/-- Modelled from the spec: the constant `EM_msg.EMSTOP` of the message header (not among the
sources); by section 9 it is the class enumerator of the state STOP. -/
def EMSTOP : Int := ST_EM_STOP

/-- Modelled from the spec: the constant `EM_msg.EMCONFIRMED` of the message header (not among
the sources); by section 9 it is the class enumerator of the state CONFIRMED. -/
def EMCONFIRMED : Int := ST_EM_CONFIRMED

/-- The C cast `(bool)x` of an integer: true exactly for a non-zero value. -/
def toBool (x : Int) : Bool := decide (x ≠ 0)

/-! ## digitalPhidgetSignalsCallback -/

/-- The automatic variables of `digitalPhidgetSignalsCallback` that the loop writes. -/
structure DigitalLocals where
  front_em_active : Bool
  rear_em_active : Bool
  emergency_stop : Bool
  got_message : Bool
deriving DecidableEq

/-- The initialisers at the top of `digitalPhidgetSignalsCallback`, run on every call:
`front_em_active = false`, `rear_em_active = false`, `emergency_stop = true`,
`got_message = false`. -/
def digitalLocalsInit : DigitalLocals :=
  { front_em_active := false, rear_em_active := false, emergency_stop := true,
    got_message := false }

/-- One iteration of the `for` loop over the message (the `if / else if / else if` chain). -/
def digitalLoopBody (l : DigitalLocals) (r : DigitalReading) : DigitalLocals :=
  if r.uri = "emergency_stop" then
    { l with emergency_stop := toBool r.state, got_message := true }
  else if r.uri = "em_stop_laser_rear" then
    { l with rear_em_active := !(toBool r.state), got_message := true }
  else if r.uri = "em_stop_laser_front" then
    { l with front_em_active := !(toBool r.state), got_message := true }
  else l

/-- The whole `for` loop: the locals after the last entry of the message. -/
def digitalLoop (msg : List DigitalReading) : DigitalLocals :=
  msg.foldl digitalLoopBody digitalLocalsInit

/-- The `switch (EM_stop_status_)` statement: the value of `EM_stop_status_` after it.
A value matching no `case` label falls through unchanged. -/
def EM_switch (EM_stop_status_ : Int) (EM_signal : Bool) : Int :=
  if EM_stop_status_ = ST_EM_FREE then
    (if EM_signal = true then EMSTOP else EM_stop_status_)
  else if EM_stop_status_ = ST_EM_STOP then
    (if EM_signal = false then EMCONFIRMED else EM_stop_status_)
  else if EM_stop_status_ = ST_EM_CONFIRMED then
    (if EM_signal = true then EMSTOP else EMFREE)
  else EM_stop_status_

/-- Method `digitalPhidgetSignalsCallback`. The block under `if (got_message)` sets
`EM_signal = emergency_stop`, runs the switch, copies the status into the outgoing message,
raises `scanner_stop` when the status is non-zero, and stores the two laser locals.
The function-static `em_caused_by_button` and the field `emergency_button_stop` occur only in
the commented-out block and are never written. The copy into the message's integer field is
taken as exact: the values the switch stores are 0, 1 and 2. -/
def digitalPhidgetSignalsCallback (s : cob_voltage_control_ros) (msg : List DigitalReading) :
    cob_voltage_control_ros :=
  let l := digitalLoop msg
  if l.got_message = true then
    let EM_signal := l.emergency_stop
    let status := EM_switch s.EM_stop_status_ EM_signal
    let em := s.component_data_.out_pub_em_stop_state_
    let em1 : EmergencyStopState := { em with emergency_state := status }
    let em2 : EmergencyStopState := if status ≠ 0 then { em1 with scanner_stop := true } else em1
    { s with
      EM_stop_status_ := status
      component_data_ := { s.component_data_ with out_pub_em_stop_state_ := em2 }
      last_front_em_state := l.front_em_active
      last_rear_em_state := l.rear_em_active }
  else s

/-! ## analogPhidgetSignalsCallback -/

/-- One iteration of the `for` loop of `analogPhidgetSignalsCallback`: three independent
`if` statements, run in sequence on `component_data_`. -/
def analogLoopBody (d : cob_voltage_control_data) (r : AnalogReading) :
    cob_voltage_control_data :=
  let d1 := if r.uri = "bat1" then
      { d with in_phidget_voltage := r.value, in_phidget_current := 0 } else d
  let d2 := if r.uri = "voltage" then { d1 with in_phidget_voltage := r.value } else d1
  let d3 := if r.uri = "current" then { d2 with in_phidget_current := r.value } else d2
  d3

/-- Method `analogPhidgetSignalsCallback`. -/
def analogPhidgetSignalsCallback (s : cob_voltage_control_ros) (msg : List AnalogReading) :
    cob_voltage_control_ros :=
  { s with component_data_ := msg.foldl analogLoopBody s.component_data_ }

/-! ## Diagnostics -/

/-- Method `diagnostics_battery`: the level and text passed to `status.summary`, as a function
of `component_data_.out_pub_power_state_.relative_remaining_capacity`. -/
def diagnostics_battery (relative_remaining_capacity : ℚ) : Nat × String :=
  if relative_remaining_capacity > 15 then (0, "Battery state is OK")
  else if relative_remaining_capacity > 10 then (1, "Battery state is LOW")
  else (2, "Battery state is CRITICAL!!")

/-- Method `diagnostics_safety`: the level and text passed to `status.summary`. -/
def diagnostics_safety (EM_stop_status_ : Int) : Nat × String :=
  if EM_stop_status_ = ST_EM_FREE then (0, "Safety state is OK")
  else if EM_stop_status_ = ST_EM_CONFIRMED then (1, "Emergency stop is confirmed")
  else (2, "Emergency stop issued!")

/-! ## Constructor and update -/

/-- The constructor. `component_data_` is default-constructed before the body runs, and the
body assigns only `scanner_stop`, `in_phidget_voltage` and `in_phidget_current` in it; the
default-constructed value `d0` and the loaded options `cfg` are arguments. -/
def construct (d0 : cob_voltage_control_data) (cfg : cob_voltage_control_config) :
    cob_voltage_control_ros :=
  { EM_stop_status_ := ST_EM_STOP
    component_data_ :=
      { d0 with
        out_pub_em_stop_state_ := { d0.out_pub_em_stop_state_ with scanner_stop := false }
        in_phidget_voltage := 0
        in_phidget_current := 0 }
    component_config_ := cfg
    last_rear_em_state := false
    last_front_em_state := false }

/-- The value of a default-constructed `cob_voltage_control_data`: a generated ROS message
initialises its numeric fields to zero and its boolean fields to false. -/
def defaultData : cob_voltage_control_data :=
  { out_pub_power_state_ := { voltage := 0, current := 0, relative_remaining_capacity := 0 }
    out_pub_em_stop_state_ :=
      { emergency_button_stop := false, scanner_stop := false, emergency_state := 0 }
    out_pub_current_ := 0
    out_pub_voltage_ := 0
    in_phidget_voltage := 0
    in_phidget_current := 0 }

/-- The fallback defaults of the six `n_param_.param` calls. -/
def defaultConfig : cob_voltage_control_config :=
  { max_voltage := 97 / 2, min_voltage := 44, max_voltage_res := 70,
    num_voltage_port := 1, num_em_stop_port := 0, num_scanner_em_port := 1 }

/-- What the conversion step writes: the power-state message and the two scalar messages. -/
structure PowerOutputs where
  power_state : PowerState
  current : ℚ
  voltage : ℚ
deriving DecidableEq

/-- Modelled from the spec: `cob_voltage_control_impl::update` is defined in
`cob_voltage_control_common.cpp`, which is not among the sources. Sections 4.4 (1) and 6
describe it as the conversion collaborator that refreshes the power snapshot from the latest
decoded analog values and the configuration. The conversion itself is the argument `conv`,
which may read all of the data and the configuration; its result is stored in the three power
outputs and nothing else of `component_data_` is written. -/
def impl_update (conv : cob_voltage_control_data → cob_voltage_control_config → PowerOutputs)
    (data : cob_voltage_control_data) (config : cob_voltage_control_config) :
    cob_voltage_control_data :=
  let o := conv data config
  { data with
    out_pub_power_state_ := o.power_state
    out_pub_current_ := o.current
    out_pub_voltage_ := o.voltage }

/-- The four messages handed to the publishers by one call of `update`. -/
structure Published where
  voltage : ℚ
  current : ℚ
  power_state : PowerState
  em_stop_state : EmergencyStopState
deriving DecidableEq

/-- Method `update`: run the conversion on `component_data_`, then publish the four outgoing
messages held in `component_data_`. Returns the object afterwards and what was published. -/
def update (conv : cob_voltage_control_data → cob_voltage_control_config → PowerOutputs)
    (s : cob_voltage_control_ros) : cob_voltage_control_ros × Published :=
  let d := impl_update conv s.component_data_ s.component_config_
  ({ s with component_data_ := d },
   { voltage := d.out_pub_voltage_
     current := d.out_pub_current_
     power_state := d.out_pub_power_state_
     em_stop_state := d.out_pub_em_stop_state_ })

/-! ## Runs of the node -/

/-- One thing that happens to the node after construction: delivery of an analog message,
delivery of a digital message, or one call of `update` from the loop in `main`. -/
inductive Event where
  | analog (msg : List AnalogReading)
  | digital (msg : List DigitalReading)
  | tick
deriving DecidableEq

/-- The object after one event. -/
def step (conv : cob_voltage_control_data → cob_voltage_control_config → PowerOutputs)
    (s : cob_voltage_control_ros) : Event → cob_voltage_control_ros
  | Event.analog msg => analogPhidgetSignalsCallback s msg
  | Event.digital msg => digitalPhidgetSignalsCallback s msg
  | Event.tick => (update conv s).1

/-- The object after a finite sequence of events, oldest first. -/
def run (conv : cob_voltage_control_data → cob_voltage_control_config → PowerOutputs)
    (s : cob_voltage_control_ros) (es : List Event) : cob_voltage_control_ros :=
  es.foldl (step conv) s

/-- The event is a digital message that the callback evaluates (it has a recognised tag). -/
def Event.Evaluated : Event → Prop
  | Event.digital msg => ∃ r ∈ msg, r.uri = "emergency_stop" ∨ r.uri = "em_stop_laser_rear" ∨
      r.uri = "em_stop_laser_front"
  | _ => False

/-! ## Predicates used to state the properties -/

/-- The message holds an `emergency_stop` entry, and every such entry reads `b`. -/
def CarriesEmergencyStop (msg : List DigitalReading) (b : Bool) : Prop :=
  (∃ r ∈ msg, r.uri = "emergency_stop") ∧
    ∀ r ∈ msg, r.uri = "emergency_stop" → toBool r.state = b

instance (msg : List DigitalReading) (b : Bool) : Decidable (CarriesEmergencyStop msg b) := by
  unfold CarriesEmergencyStop; infer_instance

/-- The tag is one of the three digital tags the callback recognises. -/
def RecognizedDigital (uri : String) : Prop :=
  uri = "emergency_stop" ∨ uri = "em_stop_laser_rear" ∨ uri = "em_stop_laser_front"

instance (uri : String) : Decidable (RecognizedDigital uri) := by
  unfold RecognizedDigital; infer_instance

/-! ## Lemmas on the digital loop -/

theorem digitalLoopBody_got_message (l : DigitalLocals) (r : DigitalReading) :
    (digitalLoopBody l r).got_message = (l.got_message || decide (RecognizedDigital r.uri)) := by
  unfold digitalLoopBody RecognizedDigital
  by_cases h1 : r.uri = "emergency_stop"
  · simp [h1]
  · by_cases h2 : r.uri = "em_stop_laser_rear"
    · simp [h1, h2]
    · by_cases h3 : r.uri = "em_stop_laser_front"
      · simp [h1, h2, h3]
      · simp [h1, h2, h3]

theorem foldl_got_message (msg : List DigitalReading) (l : DigitalLocals) :
    (msg.foldl digitalLoopBody l).got_message
      = (l.got_message || msg.any (fun r => decide (RecognizedDigital r.uri))) := by
  induction msg generalizing l with
  | nil => simp
  | cons r rest ih =>
    simp only [List.foldl_cons, List.any_cons]
    rw [ih, digitalLoopBody_got_message, Bool.or_assoc]

theorem digitalLoop_got_message_iff (msg : List DigitalReading) :
    (digitalLoop msg).got_message = true ↔ ∃ r ∈ msg, RecognizedDigital r.uri := by
  unfold digitalLoop
  rw [foldl_got_message]
  simp [digitalLocalsInit]

theorem digitalLoopBody_emergency_stop_other (l : DigitalLocals) (r : DigitalReading)
    (h : r.uri ≠ "emergency_stop") :
    (digitalLoopBody l r).emergency_stop = l.emergency_stop := by
  unfold digitalLoopBody
  by_cases h2 : r.uri = "em_stop_laser_rear"
  · simp [h, h2]
  · by_cases h3 : r.uri = "em_stop_laser_front"
    · simp [h, h2, h3]
    · simp [h, h2, h3]

theorem digitalLoopBody_emergency_stop_self (l : DigitalLocals) (r : DigitalReading)
    (h : r.uri = "emergency_stop") :
    (digitalLoopBody l r).emergency_stop = toBool r.state := by
  unfold digitalLoopBody
  simp [h]

/-- Without an `emergency_stop` entry the loop leaves the local `emergency_stop` alone. -/
theorem foldl_emergency_stop_absent (msg : List DigitalReading) (l : DigitalLocals)
    (h : ∀ r ∈ msg, r.uri ≠ "emergency_stop") :
    (msg.foldl digitalLoopBody l).emergency_stop = l.emergency_stop := by
  induction msg generalizing l with
  | nil => rfl
  | cons r rest ih =>
    simp only [List.foldl_cons]
    rw [ih _ (fun x hx => h x (List.mem_cons_of_mem _ hx)),
      digitalLoopBody_emergency_stop_other l r (h r (List.mem_cons_self _ _))]

/-- When all `emergency_stop` entries read `b`, the local ends at `b` or at its start value. -/
theorem foldl_emergency_stop_all (msg : List DigitalReading) (l : DigitalLocals) (b : Bool)
    (h : ∀ r ∈ msg, r.uri = "emergency_stop" → toBool r.state = b) :
    (msg.foldl digitalLoopBody l).emergency_stop
      = if (∃ r ∈ msg, r.uri = "emergency_stop") then b else l.emergency_stop := by
  induction msg generalizing l with
  | nil => simp
  | cons r rest ih =>
    simp only [List.foldl_cons]
    rw [ih _ (fun x hx => h x (List.mem_cons_of_mem _ hx))]
    by_cases hrest : ∃ x ∈ rest, x.uri = "emergency_stop"
    · have : ∃ x ∈ r :: rest, x.uri = "emergency_stop" := by
        obtain ⟨x, hx, hu⟩ := hrest
        exact ⟨x, List.mem_cons_of_mem _ hx, hu⟩
      simp [hrest, this]
    · by_cases hr : r.uri = "emergency_stop"
      · have : ∃ x ∈ r :: rest, x.uri = "emergency_stop" := ⟨r, List.mem_cons_self _ _, hr⟩
        rw [if_neg hrest, if_pos this, digitalLoopBody_emergency_stop_self l r hr]
        exact h r (List.mem_cons_self _ _) hr
      · have : ¬ ∃ x ∈ r :: rest, x.uri = "emergency_stop" := by
          rintro ⟨x, hx, hu⟩
          rcases List.mem_cons.mp hx with rfl | hx
          · exact hr hu
          · exact hrest ⟨x, hx, hu⟩
        rw [if_neg hrest, if_neg this, digitalLoopBody_emergency_stop_other l r hr]

theorem digitalLoop_of_carries (msg : List DigitalReading) (b : Bool)
    (h : CarriesEmergencyStop msg b) :
    (digitalLoop msg).got_message = true ∧ (digitalLoop msg).emergency_stop = b := by
  obtain ⟨⟨r, hr, hu⟩, hall⟩ := h
  constructor
  · exact (digitalLoop_got_message_iff msg).mpr ⟨r, hr, Or.inl hu⟩
  · unfold digitalLoop
    rw [foldl_emergency_stop_all msg _ b hall, if_pos ⟨r, hr, hu⟩]

/-- The status after an evaluated message is the switch applied to the loop's signal. -/
theorem callback_status_of_got (s : cob_voltage_control_ros) (msg : List DigitalReading)
    (h : (digitalLoop msg).got_message = true) :
    (digitalPhidgetSignalsCallback s msg).EM_stop_status_
      = EM_switch s.EM_stop_status_ (digitalLoop msg).emergency_stop := by
  simp [digitalPhidgetSignalsCallback, h]

theorem callback_emergency_state_of_got (s : cob_voltage_control_ros)
    (msg : List DigitalReading) (h : (digitalLoop msg).got_message = true) :
    (digitalPhidgetSignalsCallback s msg).component_data_.out_pub_em_stop_state_.emergency_state
      = EM_switch s.EM_stop_status_ (digitalLoop msg).emergency_stop := by
  simp only [digitalPhidgetSignalsCallback, h, if_true]
  split <;> rfl

theorem callback_scanner_stop_of_got (s : cob_voltage_control_ros)
    (msg : List DigitalReading) (h : (digitalLoop msg).got_message = true) :
    (digitalPhidgetSignalsCallback s msg).component_data_.out_pub_em_stop_state_.scanner_stop
      = (s.component_data_.out_pub_em_stop_state_.scanner_stop
          || decide (EM_switch s.EM_stop_status_ (digitalLoop msg).emergency_stop ≠ 0)) := by
  simp only [digitalPhidgetSignalsCallback, h, if_true]
  split
  · rename_i hne
    simp [hne]
  · rename_i hne
    simp [hne]

/-- A message without a recognised tag leaves the whole object as it was. -/
theorem callback_of_not_got (s : cob_voltage_control_ros) (msg : List DigitalReading)
    (h : ∀ r ∈ msg, ¬ RecognizedDigital r.uri) :
    digitalPhidgetSignalsCallback s msg = s := by
  have hg : ¬ (digitalLoop msg).got_message = true := by
    rw [digitalLoop_got_message_iff]
    rintro ⟨r, hr, hu⟩
    exact h r hr hu
  simp [digitalPhidgetSignalsCallback, hg]

/-! ## The published status along a run -/

theorem foldl_analog_em_stop_state (msg : List AnalogReading) (d : cob_voltage_control_data) :
    (msg.foldl analogLoopBody d).out_pub_em_stop_state_ = d.out_pub_em_stop_state_ := by
  induction msg generalizing d with
  | nil => rfl
  | cons r rest ih =>
    simp only [List.foldl_cons]
    rw [ih]
    unfold analogLoopBody
    by_cases hb : r.uri = "bat1" <;> by_cases hv : r.uri = "voltage" <;>
      by_cases hc : r.uri = "current" <;> simp [hb, hv, hc]

/-- Until a digital message is evaluated, the status stays at the constructor's STOP and the
message field `emergency_state` stays at its default-constructed value. -/
theorem run_before_evaluation
    (conv : cob_voltage_control_data → cob_voltage_control_config → PowerOutputs)
    (d0 : cob_voltage_control_data) (cfg : cob_voltage_control_config) (es : List Event)
    (h : ∀ e ∈ es, ¬ e.Evaluated) :
    (run conv (construct d0 cfg) es).EM_stop_status_ = ST_EM_STOP ∧
    (run conv (construct d0 cfg) es).component_data_.out_pub_em_stop_state_.emergency_state
      = d0.out_pub_em_stop_state_.emergency_state := by
  induction es using List.reverseRecOn with
  | nil => exact ⟨rfl, rfl⟩
  | append_singleton es e ih =>
    have ih2 := ih (fun x hx => h x (List.mem_append_left _ hx))
    have he : ¬ e.Evaluated := h e (List.mem_append_right _ (List.mem_singleton_self e))
    unfold run at ih2 ⊢
    rw [List.foldl_append, List.foldl_cons, List.foldl_nil]
    cases e with
    | analog msg =>
      refine ⟨ih2.1, ?_⟩
      show ((msg.foldl analogLoopBody _).out_pub_em_stop_state_).emergency_state = _
      rw [foldl_analog_em_stop_state]
      exact ih2.2
    | digital msg =>
      have hn : ∀ r ∈ msg, ¬ RecognizedDigital r.uri := fun r hr hu => he ⟨r, hr, hu⟩
      show (digitalPhidgetSignalsCallback _ msg).EM_stop_status_ = _ ∧
        (digitalPhidgetSignalsCallback _ msg).component_data_.out_pub_em_stop_state_.emergency_state
          = _
      rw [callback_of_not_got _ msg hn]
      exact ih2
    | tick => exact ih2

/-- From the first evaluated digital message on, the message field `emergency_state` equals
the status, whatever events follow. -/
theorem run_after_evaluation
    (conv : cob_voltage_control_data → cob_voltage_control_config → PowerOutputs)
    (s : cob_voltage_control_ros) (msg : List DigitalReading) (es : List Event)
    (h : ∃ r ∈ msg, RecognizedDigital r.uri) :
    (run conv (digitalPhidgetSignalsCallback s msg)
        es).component_data_.out_pub_em_stop_state_.emergency_state
      = (run conv (digitalPhidgetSignalsCallback s msg) es).EM_stop_status_ := by
  induction es using List.reverseRecOn with
  | nil =>
    have hg := (digitalLoop_got_message_iff msg).mpr h
    show (digitalPhidgetSignalsCallback s msg).component_data_.out_pub_em_stop_state_.emergency_state
      = (digitalPhidgetSignalsCallback s msg).EM_stop_status_
    rw [callback_emergency_state_of_got _ _ hg, callback_status_of_got _ _ hg]
  | append_singleton es e ih =>
    unfold run at ih ⊢
    rw [List.foldl_append, List.foldl_cons, List.foldl_nil]
    cases e with
    | analog m =>
      show ((m.foldl analogLoopBody _).out_pub_em_stop_state_).emergency_state = _
      rw [foldl_analog_em_stop_state]
      exact ih
    | digital m =>
      by_cases hm : (digitalLoop m).got_message = true
      · show (digitalPhidgetSignalsCallback _ m).component_data_.out_pub_em_stop_state_.emergency_state
          = (digitalPhidgetSignalsCallback _ m).EM_stop_status_
        rw [callback_emergency_state_of_got _ _ hm, callback_status_of_got _ _ hm]
      · have hn : ∀ r ∈ m, ¬ RecognizedDigital r.uri := fun r hr hu =>
          hm ((digitalLoop_got_message_iff m).mpr ⟨r, hr, hu⟩)
        show (digitalPhidgetSignalsCallback _ m).component_data_.out_pub_em_stop_state_.emergency_state
          = (digitalPhidgetSignalsCallback _ m).EM_stop_status_
        rw [callback_of_not_got _ m hn]
        exact ih
    | tick => exact ih

/-! ## The emergency-stop supervisor -/

/-- C1: for each current status FREE, STOP, CONFIRMED, a digital message that carries
`emergency_stop` asserted (`msgA`) or cleared (`msgC`) gives the next status of the table:
FREE+asserted -> STOP, FREE+cleared -> FREE, STOP+asserted -> STOP, STOP+cleared -> CONFIRMED,
CONFIRMED+asserted -> STOP, CONFIRMED+cleared -> FREE. -/
theorem C1_transition_table (s : cob_voltage_control_ros) (msgA msgC : List DigitalReading)
    (hA : CarriesEmergencyStop msgA true) (hC : CarriesEmergencyStop msgC false) :
    (digitalPhidgetSignalsCallback { s with EM_stop_status_ := ST_EM_FREE } msgA).EM_stop_status_
        = ST_EM_STOP ∧
    (digitalPhidgetSignalsCallback { s with EM_stop_status_ := ST_EM_FREE } msgC).EM_stop_status_
        = ST_EM_FREE ∧
    (digitalPhidgetSignalsCallback { s with EM_stop_status_ := ST_EM_STOP } msgA).EM_stop_status_
        = ST_EM_STOP ∧
    (digitalPhidgetSignalsCallback { s with EM_stop_status_ := ST_EM_STOP } msgC).EM_stop_status_
        = ST_EM_CONFIRMED ∧
    (digitalPhidgetSignalsCallback { s with EM_stop_status_ := ST_EM_CONFIRMED }
        msgA).EM_stop_status_ = ST_EM_STOP ∧
    (digitalPhidgetSignalsCallback { s with EM_stop_status_ := ST_EM_CONFIRMED }
        msgC).EM_stop_status_ = ST_EM_FREE := by
  obtain ⟨gA, eA⟩ := digitalLoop_of_carries msgA true hA
  obtain ⟨gC, eC⟩ := digitalLoop_of_carries msgC false hC
  simp only [callback_status_of_got _ _ gA, callback_status_of_got _ _ gC, eA, eC]
  decide

theorem C1_transition_table_witness :
    (digitalPhidgetSignalsCallback
        { (construct defaultData defaultConfig) with EM_stop_status_ := ST_EM_FREE }
        [⟨"emergency_stop", 1⟩]).EM_stop_status_ = ST_EM_STOP ∧
    (digitalPhidgetSignalsCallback
        { (construct defaultData defaultConfig) with EM_stop_status_ := ST_EM_STOP }
        [⟨"em_stop_laser_rear", 1⟩, ⟨"emergency_stop", 0⟩]).EM_stop_status_
        = ST_EM_CONFIRMED :=
  have h := C1_transition_table (construct defaultData defaultConfig)
    [⟨"emergency_stop", 1⟩] [⟨"em_stop_laser_rear", 1⟩, ⟨"emergency_stop", 0⟩]
    (by decide) (by decide)
  ⟨h.1, h.2.2.2.1⟩

/-- C2: a digital message with none of the tags `emergency_stop`, `em_stop_laser_rear`,
`em_stop_laser_front` (the empty message included) leaves the status, the published
`emergency_state` and `scanner_stop` at their prior values. -/
theorem C2_unrecognized_batch_noop (s : cob_voltage_control_ros) (msg : List DigitalReading)
    (h : ∀ r ∈ msg, ¬ RecognizedDigital r.uri) :
    (digitalPhidgetSignalsCallback s msg).EM_stop_status_ = s.EM_stop_status_ ∧
    (digitalPhidgetSignalsCallback s msg).component_data_.out_pub_em_stop_state_.emergency_state
        = s.component_data_.out_pub_em_stop_state_.emergency_state ∧
    (digitalPhidgetSignalsCallback s msg).component_data_.out_pub_em_stop_state_.scanner_stop
        = s.component_data_.out_pub_em_stop_state_.scanner_stop := by
  rw [callback_of_not_got s msg h]
  exact ⟨rfl, rfl, rfl⟩

theorem C2_unrecognized_batch_noop_witness :
    (digitalPhidgetSignalsCallback (construct defaultData defaultConfig)
        [⟨"bat1", 1⟩, ⟨"Emergency_Stop", 0⟩]).EM_stop_status_ = ST_EM_STOP ∧
    (digitalPhidgetSignalsCallback (construct defaultData defaultConfig)
        []).component_data_.out_pub_em_stop_state_.scanner_stop = false :=
  ⟨(C2_unrecognized_batch_noop (construct defaultData defaultConfig)
      [⟨"bat1", 1⟩, ⟨"Emergency_Stop", 0⟩] (by decide)).1,
   (C2_unrecognized_batch_noop (construct defaultData defaultConfig) [] (by decide)).2.2⟩

/-- C3 (as stated, refuted): from the constructed object two cleared messages bring the status
to FREE, the last `emergency_stop` value delivered being false; a following message carrying
only `em_stop_laser_front` does not leave the status FREE but sets it to STOP. -/
theorem C3_stale_value_counterexample :
    (digitalPhidgetSignalsCallback
        (digitalPhidgetSignalsCallback (construct defaultData defaultConfig)
          [⟨"emergency_stop", 0⟩])
        [⟨"emergency_stop", 0⟩]).EM_stop_status_ = ST_EM_FREE ∧
    (digitalPhidgetSignalsCallback
        (digitalPhidgetSignalsCallback
          (digitalPhidgetSignalsCallback (construct defaultData defaultConfig)
            [⟨"emergency_stop", 0⟩])
          [⟨"emergency_stop", 0⟩])
        [⟨"em_stop_laser_front", 1⟩]).EM_stop_status_ = ST_EM_STOP ∧
    ST_EM_STOP ≠ ST_EM_FREE := by
  decide

/-- C3 (amended): every digital message with a recognised laser tag and no `emergency_stop`
entry is evaluated with the stop signal asserted, the value the local `emergency_stop` is
initialised to on every call: from every object, and so whatever an earlier message `prev`
delivered, the status afterwards is the switch run on an asserted signal, which is STOP from
each of FREE, STOP and CONFIRMED; in particular, when the status is FREE after `prev` (for
instance a message carrying `emergency_stop` cleared), such a message sets it to STOP. -/
theorem C3_absent_emergency_stop_reads_asserted (s : cob_voltage_control_ros)
    (prev msg : List DigitalReading)
    (hlaser : ∃ r ∈ msg, r.uri = "em_stop_laser_rear" ∨ r.uri = "em_stop_laser_front")
    (habsent : ∀ r ∈ msg, r.uri ≠ "emergency_stop") :
    (digitalLoop msg).emergency_stop = true ∧
    (digitalPhidgetSignalsCallback s msg).EM_stop_status_
        = EM_switch s.EM_stop_status_ true ∧
    (digitalPhidgetSignalsCallback (digitalPhidgetSignalsCallback s prev) msg).EM_stop_status_
        = EM_switch (digitalPhidgetSignalsCallback s prev).EM_stop_status_ true ∧
    (digitalPhidgetSignalsCallback { s with EM_stop_status_ := ST_EM_FREE } msg).EM_stop_status_
        = ST_EM_STOP ∧
    (digitalPhidgetSignalsCallback { s with EM_stop_status_ := ST_EM_STOP } msg).EM_stop_status_
        = ST_EM_STOP ∧
    (digitalPhidgetSignalsCallback { s with EM_stop_status_ := ST_EM_CONFIRMED }
        msg).EM_stop_status_ = ST_EM_STOP ∧
    ((digitalPhidgetSignalsCallback s prev).EM_stop_status_ = ST_EM_FREE →
      (digitalPhidgetSignalsCallback (digitalPhidgetSignalsCallback s prev) msg).EM_stop_status_
        = ST_EM_STOP) := by
  have hg : (digitalLoop msg).got_message = true := by
    rw [digitalLoop_got_message_iff]
    obtain ⟨r, hr, hu⟩ := hlaser
    exact ⟨r, hr, Or.inr hu⟩
  have he : (digitalLoop msg).emergency_stop = true := by
    unfold digitalLoop
    rw [foldl_emergency_stop_absent msg _ habsent]
    rfl
  refine ⟨he, ?_, ?_, ?_, ?_, ?_, ?_⟩
  · rw [callback_status_of_got _ _ hg, he]
  · rw [callback_status_of_got _ _ hg, he]
  · rw [callback_status_of_got _ _ hg, he]
    show EM_switch ST_EM_FREE true = ST_EM_STOP
    decide
  · rw [callback_status_of_got _ _ hg, he]
    show EM_switch ST_EM_STOP true = ST_EM_STOP
    decide
  · rw [callback_status_of_got _ _ hg, he]
    show EM_switch ST_EM_CONFIRMED true = ST_EM_STOP
    decide
  · intro hfree
    rw [callback_status_of_got _ _ hg, he, hfree]
    decide

theorem C3_absent_emergency_stop_reads_asserted_witness :
    (digitalPhidgetSignalsCallback
        (digitalPhidgetSignalsCallback
          { (construct defaultData defaultConfig) with EM_stop_status_ := ST_EM_CONFIRMED }
          [⟨"emergency_stop", 0⟩])
        [⟨"em_stop_laser_front", 1⟩]).EM_stop_status_ = ST_EM_STOP ∧
    (digitalPhidgetSignalsCallback
        { (construct defaultData defaultConfig) with EM_stop_status_ := ST_EM_CONFIRMED }
        [⟨"em_stop_laser_front", 1⟩]).EM_stop_status_ = ST_EM_STOP :=
  have h := C3_absent_emergency_stop_reads_asserted
    { (construct defaultData defaultConfig) with EM_stop_status_ := ST_EM_CONFIRMED }
    [⟨"emergency_stop", 0⟩] [⟨"em_stop_laser_front", 1⟩]
    (by decide) (by decide)
  ⟨h.2.2.2.2.2.2 (by decide), h.2.2.2.2.2.1⟩

/-- C4 (fails on the code): the constructor stores STOP in `EM_stop_status_` but does not write
the `emergency_state` field of the outgoing message, so a call of `update` right after
construction publishes the value that field was default-constructed with; with the
zero-initialised default that is 0, the encoding of FREE, while the status is STOP. -/
theorem C4_first_tick_publishes_default
    (conv : cob_voltage_control_data → cob_voltage_control_config → PowerOutputs)
    (d0 : cob_voltage_control_data) (cfg : cob_voltage_control_config) :
    (update conv (construct d0 cfg)).2.em_stop_state.emergency_state
        = d0.out_pub_em_stop_state_.emergency_state ∧
    (update conv (construct d0 cfg)).1.EM_stop_status_ = ST_EM_STOP ∧
    (update conv (construct defaultData cfg)).2.em_stop_state.emergency_state = ST_EM_FREE ∧
    (update conv (construct defaultData cfg)).2.em_stop_state.emergency_state
        ≠ (update conv (construct defaultData cfg)).1.EM_stop_status_ := by
  refine ⟨rfl, rfl, rfl, ?_⟩
  show (0 : Int) ≠ 1
  decide

/-- C5: after an evaluated digital message (one with at least one recognised tag) the
`scanner_stop` flag equals (prior `scanner_stop` OR new status is not FREE); for example
`emergency_stop` cleared, delivered in status FREE, keeps the status FREE and the flag at its
prior value. -/
theorem C5_scanner_stop_after_evaluation (s : cob_voltage_control_ros)
    (msg : List DigitalReading) (h : ∃ r ∈ msg, RecognizedDigital r.uri) :
    (digitalPhidgetSignalsCallback s msg).component_data_.out_pub_em_stop_state_.scanner_stop
        = (s.component_data_.out_pub_em_stop_state_.scanner_stop
            || decide ((digitalPhidgetSignalsCallback s msg).EM_stop_status_ ≠ ST_EM_FREE)) ∧
    (digitalPhidgetSignalsCallback { s with EM_stop_status_ := ST_EM_FREE }
        [⟨"emergency_stop", 0⟩]).EM_stop_status_ = ST_EM_FREE ∧
    (digitalPhidgetSignalsCallback { s with EM_stop_status_ := ST_EM_FREE }
        [⟨"emergency_stop", 0⟩]).component_data_.out_pub_em_stop_state_.scanner_stop
        = s.component_data_.out_pub_em_stop_state_.scanner_stop := by
  have hg := (digitalLoop_got_message_iff msg).mpr h
  have hg0 : (digitalLoop [⟨"emergency_stop", 0⟩]).got_message = true := by decide
  have he0 : (digitalLoop [⟨"emergency_stop", 0⟩]).emergency_stop = false := by decide
  refine ⟨?_, ?_, ?_⟩
  · rw [callback_scanner_stop_of_got _ _ hg, callback_status_of_got _ _ hg]
    rfl
  · rw [callback_status_of_got _ _ hg0, he0]
    show EM_switch ST_EM_FREE false = ST_EM_FREE
    decide
  · rw [callback_scanner_stop_of_got _ _ hg0, he0]
    show (s.component_data_.out_pub_em_stop_state_.scanner_stop
        || decide (EM_switch ST_EM_FREE false ≠ 0))
      = s.component_data_.out_pub_em_stop_state_.scanner_stop
    have h0 : EM_switch ST_EM_FREE false = 0 := by decide
    simp [h0]

theorem C5_scanner_stop_after_evaluation_witness :
    (digitalPhidgetSignalsCallback (construct defaultData defaultConfig)
        [⟨"em_stop_laser_rear", 0⟩]).component_data_.out_pub_em_stop_state_.scanner_stop
      = ((construct defaultData defaultConfig).component_data_.out_pub_em_stop_state_.scanner_stop
          || decide ((digitalPhidgetSignalsCallback (construct defaultData defaultConfig)
              [⟨"em_stop_laser_rear", 0⟩]).EM_stop_status_ ≠ ST_EM_FREE)) :=
  (C5_scanner_stop_after_evaluation (construct defaultData defaultConfig)
    [⟨"em_stop_laser_rear", 0⟩] (by decide)).1

/-! ## The battery classifier -/

/-- C6: over exact rational capacities the battery classifier returns level 0 (OK) exactly
when x > 15, level 1 (LOW) exactly when 10 < x <= 15 and level 2 (CRITICAL) exactly when
x <= 10, for every x; so 15.01 -> OK, 15.0 -> LOW, 10.01 -> LOW, 10.0 -> CRITICAL,
0 -> CRITICAL, 100 -> OK. -/
theorem C6_battery_thresholds (x : ℚ) :
    ((diagnostics_battery x).1 = 0 ↔ x > 15) ∧
    ((diagnostics_battery x).1 = 1 ↔ (10 < x ∧ x ≤ 15)) ∧
    ((diagnostics_battery x).1 = 2 ↔ x ≤ 10) ∧
    (diagnostics_battery (1501 / 100)).1 = 0 ∧
    (diagnostics_battery 15).1 = 1 ∧
    (diagnostics_battery (1001 / 100)).1 = 1 ∧
    (diagnostics_battery 10).1 = 2 ∧
    (diagnostics_battery 0).1 = 2 ∧
    (diagnostics_battery 100).1 = 0 := by
  refine ⟨?_, ?_, ?_, ?_, ?_, ?_, ?_, ?_, ?_⟩
  · unfold diagnostics_battery
    by_cases h15 : x > 15
    · simp [h15]
    · by_cases h10 : x > 10 <;> simp [h15, h10]
  · unfold diagnostics_battery
    by_cases h15 : x > 15
    · simp [h15]
    · by_cases h10 : x > 10
      · simp [h15, h10]
        exact le_of_not_gt h15
      · simp [h15, h10]
  · unfold diagnostics_battery
    by_cases h15 : x > 15
    · simp [h15]
      linarith
    · by_cases h10 : x > 10
      · simp [h15, h10]
      · simp [h15, h10]
        exact le_of_not_gt h10
  all_goals (unfold diagnostics_battery; norm_num)

/-! ## Lemmas on the analog loop -/

/-- The loop body written as one update of the two raw fields. -/
theorem analogLoopBody_eq (d : cob_voltage_control_data) (r : AnalogReading) :
    analogLoopBody d r =
      { d with
        in_phidget_voltage :=
          if r.uri = "voltage" then r.value
          else if r.uri = "bat1" then r.value else d.in_phidget_voltage
        in_phidget_current :=
          if r.uri = "current" then r.value
          else if r.uri = "bat1" then 0 else d.in_phidget_current } := by
  unfold analogLoopBody
  by_cases hb : r.uri = "bat1" <;> by_cases hv : r.uri = "voltage" <;>
    by_cases hc : r.uri = "current" <;> simp [hb, hv, hc]

theorem foldl_analog_voltage_frame (msg : List AnalogReading) (d : cob_voltage_control_data)
    (h : ∀ r ∈ msg, r.uri ≠ "bat1" ∧ r.uri ≠ "voltage") :
    (msg.foldl analogLoopBody d).in_phidget_voltage = d.in_phidget_voltage := by
  induction msg generalizing d with
  | nil => rfl
  | cons r rest ih =>
    simp only [List.foldl_cons]
    rw [ih _ (fun x hx => h x (List.mem_cons_of_mem _ hx)), analogLoopBody_eq]
    obtain ⟨hb, hv⟩ := h r (List.mem_cons_self _ _)
    simp [hb, hv]

theorem foldl_analog_current_frame (msg : List AnalogReading) (d : cob_voltage_control_data)
    (h : ∀ r ∈ msg, r.uri ≠ "bat1" ∧ r.uri ≠ "current") :
    (msg.foldl analogLoopBody d).in_phidget_current = d.in_phidget_current := by
  induction msg generalizing d with
  | nil => rfl
  | cons r rest ih =>
    simp only [List.foldl_cons]
    rw [ih _ (fun x hx => h x (List.mem_cons_of_mem _ hx)), analogLoopBody_eq]
    obtain ⟨hb, hc⟩ := h r (List.mem_cons_self _ _)
    simp [hb, hc]

/-- Two entries satisfying a test that at most one entry of the list satisfies are equal. -/
theorem eq_of_countP_le_one {α : Type} (p : α → Bool) (l : List α) (h : l.countP p ≤ 1)
    (x y : α) (hx : x ∈ l) (hy : y ∈ l) (px : p x = true) (py : p y = true) : x = y := by
  induction l with
  | nil => cases hx
  | cons a t ih =>
    rw [List.countP_cons] at h
    rcases List.mem_cons.mp hx with hxa | hxt
    · rcases List.mem_cons.mp hy with hya | hyt
      · rw [hxa, hya]
      · have hpos : 0 < t.countP p := List.countP_pos_iff.mpr ⟨y, hyt, py⟩
        rw [if_pos (hxa ▸ px)] at h
        omega
    · rcases List.mem_cons.mp hy with hya | hyt
      · have hpos : 0 < t.countP p := List.countP_pos_iff.mpr ⟨x, hxt, px⟩
        rw [if_pos (hya ▸ py)] at h
        omega
      · exact ih (by omega) hxt hyt

/-- Two loop iterations commute unless they write the same raw field. -/
theorem analogLoopBody_comm (d : cob_voltage_control_data) (x y : AnalogReading)
    (hbb : ¬ (x.uri = "bat1" ∧ y.uri = "bat1"))
    (hvv : ¬ (x.uri = "voltage" ∧ y.uri = "voltage"))
    (hcc : ¬ (x.uri = "current" ∧ y.uri = "current"))
    (hxb : x.uri = "bat1" → y.uri ≠ "voltage" ∧ y.uri ≠ "current")
    (hyb : y.uri = "bat1" → x.uri ≠ "voltage" ∧ x.uri ≠ "current") :
    analogLoopBody (analogLoopBody d x) y = analogLoopBody (analogLoopBody d y) x := by
  simp only [analogLoopBody_eq]
  by_cases xb : x.uri = "bat1" <;> by_cases xv : x.uri = "voltage" <;>
    by_cases xc : x.uri = "current" <;> by_cases yb : y.uri = "bat1" <;>
    by_cases yv : y.uri = "voltage" <;> by_cases yc : y.uri = "current" <;>
    simp_all

/-! ## The analog decoder -/

/-- C7 (as stated, refuted): with a stored current of 5, a message of the single entry `bat1` = 3
writes both stored fields: the voltage becomes 3 and the current is reset to 0 instead of
keeping its prior value 5. -/
theorem C7_bat1_writes_both_counterexample :
    (analogPhidgetSignalsCallback (construct defaultData defaultConfig)
        [⟨"current", 5⟩]).component_data_.in_phidget_current = 5 ∧
    (analogPhidgetSignalsCallback
        (analogPhidgetSignalsCallback (construct defaultData defaultConfig) [⟨"current", 5⟩])
        [⟨"bat1", 3⟩]).component_data_.in_phidget_voltage = 3 ∧
    (analogPhidgetSignalsCallback
        (analogPhidgetSignalsCallback (construct defaultData defaultConfig) [⟨"current", 5⟩])
        [⟨"bat1", 3⟩]).component_data_.in_phidget_current = 0 ∧
    (0 : ℚ) ≠ 5 := by
  refine ⟨?_, ?_, ?_, by norm_num⟩ <;>
    simp [analogPhidgetSignalsCallback, analogLoopBody]

/-- C7 (amended): for every prior object and value, a message of the single entry `voltage`
writes the value into the stored voltage and leaves the stored current; a single entry
`current` writes the value into the stored current and leaves the stored voltage; a single
entry `bat1` writes the value into the stored voltage and sets the stored current to 0. -/
theorem C7_single_reading_effect (s : cob_voltage_control_ros) (v : ℚ) :
    ((analogPhidgetSignalsCallback s [⟨"voltage", v⟩]).component_data_.in_phidget_voltage = v ∧
     (analogPhidgetSignalsCallback s [⟨"voltage", v⟩]).component_data_.in_phidget_current
        = s.component_data_.in_phidget_current) ∧
    ((analogPhidgetSignalsCallback s [⟨"current", v⟩]).component_data_.in_phidget_current = v ∧
     (analogPhidgetSignalsCallback s [⟨"current", v⟩]).component_data_.in_phidget_voltage
        = s.component_data_.in_phidget_voltage) ∧
    ((analogPhidgetSignalsCallback s [⟨"bat1", v⟩]).component_data_.in_phidget_voltage = v ∧
     (analogPhidgetSignalsCallback s [⟨"bat1", v⟩]).component_data_.in_phidget_current = 0) := by
  simp [analogPhidgetSignalsCallback, analogLoopBody]

/-- C8: an analog message whose only recognised tag is `current` (any number of entries, any
unknown tags mixed in) leaves the stored voltage unchanged; one whose only recognised tag is
`voltage` leaves the stored current unchanged; one with no recognised tag changes neither. -/
theorem C8_analog_frame (s : cob_voltage_control_ros) (mc mv mu : List AnalogReading)
    (hc : ∀ r ∈ mc, r.uri = "bat1" ∨ r.uri = "voltage" ∨ r.uri = "current" → r.uri = "current")
    (hv : ∀ r ∈ mv, r.uri = "bat1" ∨ r.uri = "voltage" ∨ r.uri = "current" → r.uri = "voltage")
    (hu : ∀ r ∈ mu, ¬ (r.uri = "bat1" ∨ r.uri = "voltage" ∨ r.uri = "current")) :
    (analogPhidgetSignalsCallback s mc).component_data_.in_phidget_voltage
        = s.component_data_.in_phidget_voltage ∧
    (analogPhidgetSignalsCallback s mv).component_data_.in_phidget_current
        = s.component_data_.in_phidget_current ∧
    (analogPhidgetSignalsCallback s mu).component_data_.in_phidget_voltage
        = s.component_data_.in_phidget_voltage ∧
    (analogPhidgetSignalsCallback s mu).component_data_.in_phidget_current
        = s.component_data_.in_phidget_current := by
  have ne_bc : ("bat1" : String) ≠ "current" := by decide
  have ne_vc : ("voltage" : String) ≠ "current" := by decide
  have ne_bv : ("bat1" : String) ≠ "voltage" := by decide
  refine ⟨?_, ?_, ?_, ?_⟩
  · apply foldl_analog_voltage_frame
    intro r hr
    constructor
    · intro hb
      exact ne_bc (hb ▸ hc r hr (Or.inl hb))
    · intro hvv
      exact ne_vc (hvv ▸ hc r hr (Or.inr (Or.inl hvv)))
  · apply foldl_analog_current_frame
    intro r hr
    constructor
    · intro hb
      exact ne_bv (hb ▸ hv r hr (Or.inl hb))
    · intro hcc
      exact ne_vc.symm (hcc ▸ hv r hr (Or.inr (Or.inr hcc)))
  · apply foldl_analog_voltage_frame
    intro r hr
    exact ⟨fun hb => hu r hr (Or.inl hb), fun hvv => hu r hr (Or.inr (Or.inl hvv))⟩
  · apply foldl_analog_current_frame
    intro r hr
    exact ⟨fun hb => hu r hr (Or.inl hb), fun hcc => hu r hr (Or.inr (Or.inr hcc))⟩

theorem C8_analog_frame_witness :
    (analogPhidgetSignalsCallback (construct defaultData defaultConfig)
        [⟨"current", 4⟩, ⟨"temp", 9⟩, ⟨"current", 6⟩]).component_data_.in_phidget_voltage
        = (construct defaultData defaultConfig).component_data_.in_phidget_voltage ∧
    (analogPhidgetSignalsCallback (construct defaultData defaultConfig)
        [⟨"temp", 9⟩, ⟨"voltage", 7⟩]).component_data_.in_phidget_current
        = (construct defaultData defaultConfig).component_data_.in_phidget_current :=
  have h := C8_analog_frame (construct defaultData defaultConfig)
    [⟨"current", 4⟩, ⟨"temp", 9⟩, ⟨"current", 6⟩] [⟨"temp", 9⟩, ⟨"voltage", 7⟩]
    [⟨"temp", 9⟩] (by decide) (by decide) (by decide)
  ⟨h.1, h.2.1⟩

/-- C9 (as stated, refuted): the message (`bat1` = 3, `voltage` = 5) holds each recognised tag
at most once, yet it and its permutation (`voltage` = 5, `bat1` = 3) leave different stored
voltages, 5 and 3. -/
theorem C9_order_matters_counterexample :
    List.Perm ([⟨"bat1", 3⟩, ⟨"voltage", 5⟩] : List AnalogReading)
        [⟨"voltage", 5⟩, ⟨"bat1", 3⟩] ∧
    ([⟨"bat1", 3⟩, ⟨"voltage", 5⟩] : List AnalogReading).countP
        (fun r => decide (r.uri = "bat1")) ≤ 1 ∧
    ([⟨"bat1", 3⟩, ⟨"voltage", 5⟩] : List AnalogReading).countP
        (fun r => decide (r.uri = "voltage")) ≤ 1 ∧
    ([⟨"bat1", 3⟩, ⟨"voltage", 5⟩] : List AnalogReading).countP
        (fun r => decide (r.uri = "current")) ≤ 1 ∧
    (analogPhidgetSignalsCallback (construct defaultData defaultConfig)
        [⟨"bat1", 3⟩, ⟨"voltage", 5⟩]).component_data_.in_phidget_voltage = 5 ∧
    (analogPhidgetSignalsCallback (construct defaultData defaultConfig)
        [⟨"voltage", 5⟩, ⟨"bat1", 3⟩]).component_data_.in_phidget_voltage = 3 ∧
    (5 : ℚ) ≠ 3 := by
  refine ⟨List.Perm.swap _ _ _, by decide, by decide, by decide, ?_, ?_, by norm_num⟩ <;>
    simp [analogPhidgetSignalsCallback, analogLoopBody]

/-- C9 (amended): for every prior object and every analog message in which each recognised tag
(`bat1`, `voltage`, `current`) occurs at most once and `bat1` does not occur together with
`voltage` or `current`, every permutation of the entries leaves the same object, in particular
the same stored voltage and current. -/
theorem C9_permutation_invariance (s : cob_voltage_control_ros) (msg msg2 : List AnalogReading)
    (hperm : List.Perm msg msg2)
    (hb : msg.countP (fun r => decide (r.uri = "bat1")) ≤ 1)
    (hv : msg.countP (fun r => decide (r.uri = "voltage")) ≤ 1)
    (hc : msg.countP (fun r => decide (r.uri = "current")) ≤ 1)
    (hexcl : (∃ r ∈ msg, r.uri = "bat1") → ∀ r ∈ msg, r.uri ≠ "voltage" ∧ r.uri ≠ "current") :
    (analogPhidgetSignalsCallback s msg).component_data_.in_phidget_voltage
        = (analogPhidgetSignalsCallback s msg2).component_data_.in_phidget_voltage ∧
    (analogPhidgetSignalsCallback s msg).component_data_.in_phidget_current
        = (analogPhidgetSignalsCallback s msg2).component_data_.in_phidget_current ∧
    analogPhidgetSignalsCallback s msg = analogPhidgetSignalsCallback s msg2 := by
  have hfold : msg.foldl analogLoopBody s.component_data_
      = msg2.foldl analogLoopBody s.component_data_ := by
    apply List.Perm.foldl_eq' hperm
    intro x hx y hy d
    by_cases hxy : x = y
    · rw [hxy]
    · apply analogLoopBody_comm
      · rintro ⟨h1, h2⟩
        exact hxy (eq_of_countP_le_one _ msg hb x y hx hy (by simpa using h1) (by simpa using h2))
      · rintro ⟨h1, h2⟩
        exact hxy (eq_of_countP_le_one _ msg hv x y hx hy (by simpa using h1) (by simpa using h2))
      · rintro ⟨h1, h2⟩
        exact hxy (eq_of_countP_le_one _ msg hc x y hx hy (by simpa using h1) (by simpa using h2))
      · intro h1
        exact hexcl ⟨x, hx, h1⟩ y hy
      · intro h1
        exact hexcl ⟨y, hy, h1⟩ x hx
  have hall : analogPhidgetSignalsCallback s msg = analogPhidgetSignalsCallback s msg2 := by
    unfold analogPhidgetSignalsCallback
    rw [hfold]
  exact ⟨by rw [hall], by rw [hall], hall⟩

theorem C9_permutation_invariance_witness :
    (analogPhidgetSignalsCallback (construct defaultData defaultConfig)
        [⟨"voltage", 5⟩, ⟨"temp", 1⟩, ⟨"current", 2⟩]).component_data_.in_phidget_voltage
      = (analogPhidgetSignalsCallback (construct defaultData defaultConfig)
        [⟨"current", 2⟩, ⟨"voltage", 5⟩, ⟨"temp", 1⟩]).component_data_.in_phidget_voltage :=
  (C9_permutation_invariance (construct defaultData defaultConfig)
    [⟨"voltage", 5⟩, ⟨"temp", 1⟩, ⟨"current", 2⟩] [⟨"current", 2⟩, ⟨"voltage", 5⟩, ⟨"temp", 1⟩]
    (by decide) (by decide) (by decide) (by decide) (by decide)).1

/-! ## A run of the supervisor -/

/-- C10: from status FREE (any `scanner_stop`), four digital messages carrying `emergency_stop`
= true, false, false, true in that order give STOP with `scanner_stop` true, then CONFIRMED
with `scanner_stop` true, then FREE with `scanner_stop` still true, then STOP. -/
theorem C10_sequence (s : cob_voltage_control_ros) (m1 m2 m3 m4 : List DigitalReading)
    (h0 : s.EM_stop_status_ = ST_EM_FREE)
    (h1 : CarriesEmergencyStop m1 true) (h2 : CarriesEmergencyStop m2 false)
    (h3 : CarriesEmergencyStop m3 false) (h4 : CarriesEmergencyStop m4 true) :
    let s1 := digitalPhidgetSignalsCallback s m1
    let s2 := digitalPhidgetSignalsCallback s1 m2
    let s3 := digitalPhidgetSignalsCallback s2 m3
    let s4 := digitalPhidgetSignalsCallback s3 m4
    (s1.EM_stop_status_ = ST_EM_STOP ∧
      s1.component_data_.out_pub_em_stop_state_.scanner_stop = true) ∧
    (s2.EM_stop_status_ = ST_EM_CONFIRMED ∧
      s2.component_data_.out_pub_em_stop_state_.scanner_stop = true) ∧
    (s3.EM_stop_status_ = ST_EM_FREE ∧
      s3.component_data_.out_pub_em_stop_state_.scanner_stop = true) ∧
    s4.EM_stop_status_ = ST_EM_STOP := by
  intro s1 s2 s3 s4
  obtain ⟨g1, e1⟩ := digitalLoop_of_carries m1 true h1
  obtain ⟨g2, e2⟩ := digitalLoop_of_carries m2 false h2
  obtain ⟨g3, e3⟩ := digitalLoop_of_carries m3 false h3
  obtain ⟨g4, e4⟩ := digitalLoop_of_carries m4 true h4
  have t1 : s1.EM_stop_status_ = ST_EM_STOP := by
    show (digitalPhidgetSignalsCallback s m1).EM_stop_status_ = ST_EM_STOP
    rw [callback_status_of_got _ _ g1, e1, h0]
    decide
  have c1 : s1.component_data_.out_pub_em_stop_state_.scanner_stop = true := by
    show (digitalPhidgetSignalsCallback s m1).component_data_.out_pub_em_stop_state_.scanner_stop
      = true
    rw [callback_scanner_stop_of_got _ _ g1, e1, h0]
    have : EM_switch ST_EM_FREE true ≠ 0 := by decide
    simp [this]
  have t2 : s2.EM_stop_status_ = ST_EM_CONFIRMED := by
    show (digitalPhidgetSignalsCallback s1 m2).EM_stop_status_ = ST_EM_CONFIRMED
    rw [callback_status_of_got _ _ g2, e2, t1]
    decide
  have c2 : s2.component_data_.out_pub_em_stop_state_.scanner_stop = true := by
    show (digitalPhidgetSignalsCallback s1 m2).component_data_.out_pub_em_stop_state_.scanner_stop
      = true
    rw [callback_scanner_stop_of_got _ _ g2, c1]
    rfl
  have t3 : s3.EM_stop_status_ = ST_EM_FREE := by
    show (digitalPhidgetSignalsCallback s2 m3).EM_stop_status_ = ST_EM_FREE
    rw [callback_status_of_got _ _ g3, e3, t2]
    decide
  have c3 : s3.component_data_.out_pub_em_stop_state_.scanner_stop = true := by
    show (digitalPhidgetSignalsCallback s2 m3).component_data_.out_pub_em_stop_state_.scanner_stop
      = true
    rw [callback_scanner_stop_of_got _ _ g3, c2]
    rfl
  have t4 : s4.EM_stop_status_ = ST_EM_STOP := by
    show (digitalPhidgetSignalsCallback s3 m4).EM_stop_status_ = ST_EM_STOP
    rw [callback_status_of_got _ _ g4, e4, t3]
    decide
  exact ⟨⟨t1, c1⟩, ⟨t2, c2⟩, ⟨t3, c3⟩, t4⟩

theorem C10_sequence_witness :
    (digitalPhidgetSignalsCallback
      (digitalPhidgetSignalsCallback
        (digitalPhidgetSignalsCallback
          (digitalPhidgetSignalsCallback
            { (construct defaultData defaultConfig) with EM_stop_status_ := ST_EM_FREE }
            [⟨"emergency_stop", 1⟩])
          [⟨"emergency_stop", 0⟩])
        [⟨"emergency_stop", 0⟩])
      [⟨"emergency_stop", 1⟩]).EM_stop_status_ = ST_EM_STOP :=
  (C10_sequence { (construct defaultData defaultConfig) with EM_stop_status_ := ST_EM_FREE }
    [⟨"emergency_stop", 1⟩] [⟨"emergency_stop", 0⟩] [⟨"emergency_stop", 0⟩]
    [⟨"emergency_stop", 1⟩] (by decide) (by decide) (by decide) (by decide) (by decide)).2.2.2

/-! ## Lemmas on the switch and on runs -/

theorem EM_switch_other (x : Int) (b : Bool) (h0 : x ≠ 0) (h1 : x ≠ 1) (h2 : x ≠ 2) :
    EM_switch x b = x := by
  simp [EM_switch, ST_EM_FREE, ST_EM_STOP, ST_EM_CONFIRMED, h0, h1, h2]

/-- The switch ends at FREE only from FREE or CONFIRMED, and only on a cleared signal. -/
theorem EM_switch_eq_free (x : Int) (b : Bool) (h : EM_switch x b = ST_EM_FREE) :
    (x = ST_EM_FREE ∨ x = ST_EM_CONFIRMED) ∧ b = false := by
  by_cases h0 : x = 0
  · subst h0
    cases b
    · exact ⟨Or.inl rfl, rfl⟩
    · exact absurd h (by decide)
  · by_cases h1 : x = 1
    · subst h1
      cases b <;> exact absurd h (by decide)
    · by_cases h2 : x = 2
      · subst h2
        cases b
        · exact ⟨Or.inr rfl, rfl⟩
        · exact absurd h (by decide)
      · rw [EM_switch_other x b h0 h1 h2] at h
        exact absurd h h0

/-- The switch ends at CONFIRMED only from STOP, and only on a cleared signal. -/
theorem EM_switch_eq_confirmed (x : Int) (b : Bool) (h : EM_switch x b = ST_EM_CONFIRMED) :
    x = ST_EM_STOP ∧ b = false := by
  by_cases h0 : x = 0
  · subst h0
    cases b <;> exact absurd h (by decide)
  · by_cases h1 : x = 1
    · subst h1
      cases b
      · exact ⟨rfl, rfl⟩
      · exact absurd h (by decide)
    · by_cases h2 : x = 2
      · subst h2
        cases b <;> exact absurd h (by decide)
      · rw [EM_switch_other x b h0 h1 h2] at h
        exact absurd h h2

/-- From the second application of one signal on, the switch no longer moves. -/
theorem EM_switch_settles (x : Int) (b : Bool) :
    EM_switch (EM_switch (EM_switch x b) b) b = EM_switch (EM_switch x b) b := by
  by_cases h0 : x = 0
  · subst h0
    cases b <;> decide
  · by_cases h1 : x = 1
    · subst h1
      cases b <;> decide
    · by_cases h2 : x = 2
      · subst h2
        cases b <;> decide
      · simp only [EM_switch_other x b h0 h1 h2]

theorem run_append (conv : cob_voltage_control_data → cob_voltage_control_config → PowerOutputs)
    (s : cob_voltage_control_ros) (es fs : List Event) :
    run conv s (es ++ fs) = run conv (run conv s es) fs := by
  unfold run
  rw [List.foldl_append]

theorem run_snoc (conv : cob_voltage_control_data → cob_voltage_control_config → PowerOutputs)
    (s : cob_voltage_control_ros) (es : List Event) (e : Event) :
    run conv s (es ++ [e]) = step conv (run conv s es) e := by
  rw [run_append]
  rfl

/-- An analog message leaves the status and the emergency-stop message alone. -/
theorem analog_frame_em (s : cob_voltage_control_ros) (msg : List AnalogReading) :
    (analogPhidgetSignalsCallback s msg).EM_stop_status_ = s.EM_stop_status_ ∧
    (analogPhidgetSignalsCallback s msg).component_data_.out_pub_em_stop_state_
      = s.component_data_.out_pub_em_stop_state_ :=
  ⟨rfl, foldl_analog_em_stop_state msg s.component_data_⟩

/-- A call of `update` leaves the status and the emergency-stop message alone. -/
theorem update_frame_em
    (conv : cob_voltage_control_data → cob_voltage_control_config → PowerOutputs)
    (s : cob_voltage_control_ros) :
    (update conv s).1.EM_stop_status_ = s.EM_stop_status_ ∧
    (update conv s).1.component_data_.out_pub_em_stop_state_
      = s.component_data_.out_pub_em_stop_state_ ∧
    (update conv s).2.em_stop_state = s.component_data_.out_pub_em_stop_state_ :=
  ⟨rfl, rfl, rfl⟩

/-- An event that is not an evaluated digital message leaves the status and the
emergency-stop message alone. -/
theorem step_frame_of_not_evaluated
    (conv : cob_voltage_control_data → cob_voltage_control_config → PowerOutputs)
    (s : cob_voltage_control_ros) (e : Event) (h : ¬ e.Evaluated) :
    (step conv s e).EM_stop_status_ = s.EM_stop_status_ ∧
    (step conv s e).component_data_.out_pub_em_stop_state_
      = s.component_data_.out_pub_em_stop_state_ := by
  cases e with
  | analog msg => exact analog_frame_em s msg
  | digital msg =>
    have hn : ∀ r ∈ msg, ¬ RecognizedDigital r.uri := fun r hr hu => h ⟨r, hr, hu⟩
    show (digitalPhidgetSignalsCallback s msg).EM_stop_status_ = _ ∧
      (digitalPhidgetSignalsCallback s msg).component_data_.out_pub_em_stop_state_ = _
    rw [callback_of_not_got s msg hn]
    exact ⟨rfl, rfl⟩
  | tick => exact ⟨rfl, rfl⟩

theorem run_frame_of_not_evaluated
    (conv : cob_voltage_control_data → cob_voltage_control_config → PowerOutputs)
    (s : cob_voltage_control_ros) (es : List Event) (h : ∀ e ∈ es, ¬ e.Evaluated) :
    (run conv s es).EM_stop_status_ = s.EM_stop_status_ ∧
    (run conv s es).component_data_.out_pub_em_stop_state_
      = s.component_data_.out_pub_em_stop_state_ := by
  induction es using List.reverseRecOn with
  | nil => exact ⟨rfl, rfl⟩
  | append_singleton es e ih =>
    have ih2 := ih (fun x hx => h x (List.mem_append_left _ hx))
    have he := step_frame_of_not_evaluated conv (run conv s es) e
      (h e (List.mem_append_right _ (List.mem_singleton_self e)))
    rw [run_snoc]
    exact ⟨he.1.trans ih2.1, he.2.trans ih2.2⟩

/-- No event lowers a raised `scanner_stop`. -/
theorem step_scanner_stop_latched
    (conv : cob_voltage_control_data → cob_voltage_control_config → PowerOutputs)
    (s : cob_voltage_control_ros) (e : Event)
    (h : s.component_data_.out_pub_em_stop_state_.scanner_stop = true) :
    (step conv s e).component_data_.out_pub_em_stop_state_.scanner_stop = true := by
  by_cases he : e.Evaluated
  · cases e with
    | analog msg => exact absurd he (fun hf => hf)
    | digital msg =>
      have hg : (digitalLoop msg).got_message = true :=
        (digitalLoop_got_message_iff msg).mpr he
      show (digitalPhidgetSignalsCallback s msg).component_data_.out_pub_em_stop_state_.scanner_stop
        = true
      rw [callback_scanner_stop_of_got s msg hg, h]
      rfl
    | tick => exact absurd he (fun hf => hf)
  · rw [(step_frame_of_not_evaluated conv s e he).2]
    exact h

/-! ## Latch, idempotence, frame and initial state -/

/-- C11: `scanner_stop` is latched: from every object in which it is true, after every finite
sequence of analog messages, digital messages and calls of `update` it is still true; no
operation writes false to it after construction, also when the status returns to FREE. -/
theorem C11_scanner_stop_latched
    (conv : cob_voltage_control_data → cob_voltage_control_config → PowerOutputs)
    (s : cob_voltage_control_ros) (es : List Event)
    (h : s.component_data_.out_pub_em_stop_state_.scanner_stop = true) :
    (run conv s es).component_data_.out_pub_em_stop_state_.scanner_stop = true := by
  induction es using List.reverseRecOn with
  | nil => exact h
  | append_singleton es e ih =>
    rw [run_snoc]
    exact step_scanner_stop_latched conv _ e ih

theorem C11_scanner_stop_latched_witness :
    (run (fun d _ => ⟨d.out_pub_power_state_, d.in_phidget_current, d.in_phidget_voltage⟩)
        (digitalPhidgetSignalsCallback (construct defaultData defaultConfig)
          [⟨"emergency_stop", 1⟩])
        [Event.digital [⟨"emergency_stop", 0⟩], Event.tick,
          Event.digital [⟨"emergency_stop", 0⟩], Event.analog [⟨"bat1", 48⟩],
          Event.tick]).EM_stop_status_ = ST_EM_FREE ∧
    (run (fun d _ => ⟨d.out_pub_power_state_, d.in_phidget_current, d.in_phidget_voltage⟩)
        (digitalPhidgetSignalsCallback (construct defaultData defaultConfig)
          [⟨"emergency_stop", 1⟩])
        [Event.digital [⟨"emergency_stop", 0⟩], Event.tick,
          Event.digital [⟨"emergency_stop", 0⟩], Event.analog [⟨"bat1", 48⟩],
          Event.tick]).component_data_.out_pub_em_stop_state_.scanner_stop = true :=
  ⟨by decide,
   C11_scanner_stop_latched _
    (digitalPhidgetSignalsCallback (construct defaultData defaultConfig)
      [⟨"emergency_stop", 1⟩]) _ (by decide)⟩

/-- C12: with the step being the status after an evaluated digital message carrying
`emergency_stop` asserted (`msgA`) or cleared (`msgC`): for the four stable pairs
(FREE, cleared), (STOP, asserted), (CONFIRMED, asserted), (CONFIRMED, cleared) a second
delivery of the same signal leaves the status of the first; and for every object and either
signal the status after three deliveries is the status after two. -/
theorem C12_idempotence (s : cob_voltage_control_ros) (msgA msgC : List DigitalReading)
    (hA : CarriesEmergencyStop msgA true) (hC : CarriesEmergencyStop msgC false) :
    ((digitalPhidgetSignalsCallback (digitalPhidgetSignalsCallback
        { s with EM_stop_status_ := ST_EM_FREE } msgC) msgC).EM_stop_status_
      = (digitalPhidgetSignalsCallback
        { s with EM_stop_status_ := ST_EM_FREE } msgC).EM_stop_status_) ∧
    ((digitalPhidgetSignalsCallback (digitalPhidgetSignalsCallback
        { s with EM_stop_status_ := ST_EM_STOP } msgA) msgA).EM_stop_status_
      = (digitalPhidgetSignalsCallback
        { s with EM_stop_status_ := ST_EM_STOP } msgA).EM_stop_status_) ∧
    ((digitalPhidgetSignalsCallback (digitalPhidgetSignalsCallback
        { s with EM_stop_status_ := ST_EM_CONFIRMED } msgA) msgA).EM_stop_status_
      = (digitalPhidgetSignalsCallback
        { s with EM_stop_status_ := ST_EM_CONFIRMED } msgA).EM_stop_status_) ∧
    ((digitalPhidgetSignalsCallback (digitalPhidgetSignalsCallback
        { s with EM_stop_status_ := ST_EM_CONFIRMED } msgC) msgC).EM_stop_status_
      = (digitalPhidgetSignalsCallback
        { s with EM_stop_status_ := ST_EM_CONFIRMED } msgC).EM_stop_status_) ∧
    ((digitalPhidgetSignalsCallback (digitalPhidgetSignalsCallback
        (digitalPhidgetSignalsCallback s msgA) msgA) msgA).EM_stop_status_
      = (digitalPhidgetSignalsCallback
        (digitalPhidgetSignalsCallback s msgA) msgA).EM_stop_status_) ∧
    ((digitalPhidgetSignalsCallback (digitalPhidgetSignalsCallback
        (digitalPhidgetSignalsCallback s msgC) msgC) msgC).EM_stop_status_
      = (digitalPhidgetSignalsCallback
        (digitalPhidgetSignalsCallback s msgC) msgC).EM_stop_status_) := by
  obtain ⟨gA, eA⟩ := digitalLoop_of_carries msgA true hA
  obtain ⟨gC, eC⟩ := digitalLoop_of_carries msgC false hC
  simp only [callback_status_of_got _ _ gA, callback_status_of_got _ _ gC, eA, eC]
  refine ⟨by decide, by decide, by decide, by decide, ?_, ?_⟩
  · exact EM_switch_settles _ _
  · exact EM_switch_settles _ _

theorem C12_idempotence_witness :
    (digitalPhidgetSignalsCallback (digitalPhidgetSignalsCallback
        (digitalPhidgetSignalsCallback (construct defaultData defaultConfig)
          [⟨"emergency_stop", 0⟩]) [⟨"emergency_stop", 0⟩])
        [⟨"emergency_stop", 0⟩]).EM_stop_status_
      = (digitalPhidgetSignalsCallback
        (digitalPhidgetSignalsCallback (construct defaultData defaultConfig)
          [⟨"emergency_stop", 0⟩]) [⟨"emergency_stop", 0⟩]).EM_stop_status_ :=
  (C12_idempotence (construct defaultData defaultConfig)
    [⟨"emergency_stop", 1⟩] [⟨"emergency_stop", 0⟩] (by decide) (by decide)).2.2.2.2.2

/-- C13: a call of `update` and an analog message each leave the status unchanged, so after a
call of `update` followed by any number of analog messages the status is the one the first
call had, and the next call of `update` publishes the same emergency-stop message. -/
theorem C13_only_digital_recomputes
    (conv : cob_voltage_control_data → cob_voltage_control_config → PowerOutputs)
    (s : cob_voltage_control_ros) (msg : List AnalogReading) (ms : List (List AnalogReading)) :
    (update conv s).1.EM_stop_status_ = s.EM_stop_status_ ∧
    (analogPhidgetSignalsCallback s msg).EM_stop_status_ = s.EM_stop_status_ ∧
    (run conv (update conv s).1 (ms.map Event.analog)).EM_stop_status_ = s.EM_stop_status_ ∧
    (update conv (run conv (update conv s).1 (ms.map Event.analog))).1.EM_stop_status_
      = s.EM_stop_status_ ∧
    (update conv (run conv (update conv s).1 (ms.map Event.analog))).2.em_stop_state
      = (update conv s).2.em_stop_state := by
  have hne : ∀ e ∈ ms.map Event.analog, ¬ e.Evaluated := by
    intro e he
    obtain ⟨m, _, rfl⟩ := List.mem_map.mp he
    exact fun hf => hf
  have hrun := run_frame_of_not_evaluated conv (update conv s).1 (ms.map Event.analog) hne
  refine ⟨rfl, rfl, hrun.1, hrun.1, ?_⟩
  rw [(update_frame_em conv _).2.2, hrun.2]
  rfl

/-- C14: right after construction the status is STOP (not FREE), `scanner_stop` is false, and
the stored raw voltage and current are both 0. -/
theorem C14_initial_state (d0 : cob_voltage_control_data) (cfg : cob_voltage_control_config) :
    (construct d0 cfg).EM_stop_status_ = ST_EM_STOP ∧
    (construct d0 cfg).EM_stop_status_ ≠ ST_EM_FREE ∧
    (construct d0 cfg).component_data_.out_pub_em_stop_state_.scanner_stop = false ∧
    (construct d0 cfg).component_data_.in_phidget_voltage = 0 ∧
    (construct d0 cfg).component_data_.in_phidget_current = 0 := by
  refine ⟨rfl, ?_, rfl, rfl, rfl⟩
  show ST_EM_STOP ≠ ST_EM_FREE
  decide

/-! ## Release, priority of the stop signal, and the latch along a run -/

/-- A list of events has no evaluated digital message, or it has a last one. -/
theorem exists_last_evaluated (es : List Event) :
    (∀ e ∈ es, ¬ e.Evaluated) ∨
    ∃ pre e mid, es = pre ++ e :: mid ∧ e.Evaluated ∧ ∀ x ∈ mid, ¬ x.Evaluated := by
  induction es using List.reverseRecOn with
  | nil =>
    left
    intro e he
    cases he
  | append_singleton es e ih =>
    by_cases he : e.Evaluated
    · right
      exact ⟨es, e, [], rfl, he, fun x hx => by cases hx⟩
    · rcases ih with hnone | ⟨pre, e1, mid, heq, he1, hmid⟩
      · left
        intro x hx
        rcases List.mem_append.mp hx with hx | hx
        · exact hnone x hx
        · rw [List.mem_singleton.mp hx]
          exact he
      · right
        refine ⟨pre, e1, mid ++ [e], ?_, he1, ?_⟩
        · rw [heq]
          simp
        · intro x hx
          rcases List.mem_append.mp hx with hx | hx
          · exact hmid x hx
          · rw [List.mem_singleton.mp hx]
            exact he

/-- The local `emergency_stop` can only end false through an entry that reads false. -/
theorem foldl_cleared_has_reading (msg : List DigitalReading) (l : DigitalLocals)
    (hl : l.emergency_stop = true)
    (h : (msg.foldl digitalLoopBody l).emergency_stop = false) :
    ∃ r ∈ msg, r.uri = "emergency_stop" ∧ toBool r.state = false := by
  induction msg using List.reverseRecOn with
  | nil =>
    rw [List.foldl_nil, hl] at h
    cases h
  | append_singleton msg r ih =>
    rw [List.foldl_append, List.foldl_cons, List.foldl_nil] at h
    by_cases hr : r.uri = "emergency_stop"
    · rw [digitalLoopBody_emergency_stop_self _ r hr] at h
      exact ⟨r, List.mem_append_right _ (List.mem_singleton_self r), hr, h⟩
    · rw [digitalLoopBody_emergency_stop_other _ r hr] at h
      obtain ⟨x, hx, hu, hv⟩ := ih h
      exact ⟨x, List.mem_append_left _ hx, hu, hv⟩

/-- The local `emergency_stop` ends at the value of the last `emergency_stop` entry. -/
theorem digitalLoop_of_last_reading (pre post : List DigitalReading) (r : DigitalReading)
    (hr : r.uri = "emergency_stop") (hpost : ∀ x ∈ post, x.uri ≠ "emergency_stop") :
    (digitalLoop (pre ++ r :: post)).emergency_stop = toBool r.state := by
  unfold digitalLoop
  rw [List.foldl_append, List.foldl_cons, foldl_emergency_stop_absent post _ hpost,
    digitalLoopBody_emergency_stop_self _ r hr]

/-- C15: in a run from the constructed object, when the status is FREE right after an
evaluated digital message `B`, then `B` was evaluated with the stop signal cleared (through an
`emergency_stop` entry reading false), and there is an evaluated digital message `B1` before
it, with no evaluated message in between, that was also evaluated with the signal cleared;
and a single evaluation never takes the status from STOP to FREE. -/
theorem C15_release_needs_two_cleared
    (conv : cob_voltage_control_data → cob_voltage_control_config → PowerOutputs)
    (d0 : cob_voltage_control_data) (cfg : cob_voltage_control_config)
    (pre : List Event) (B : List DigitalReading)
    (hB : ∃ r ∈ B, RecognizedDigital r.uri)
    (hfree : (run conv (construct d0 cfg) (pre ++ [Event.digital B])).EM_stop_status_
      = ST_EM_FREE) :
    ((digitalLoop B).emergency_stop = false ∧
      ∃ r ∈ B, r.uri = "emergency_stop" ∧ toBool r.state = false) ∧
    (∃ pre1 B1 mid, pre = pre1 ++ Event.digital B1 :: mid ∧
      (∃ r ∈ B1, RecognizedDigital r.uri) ∧ (∀ e ∈ mid, ¬ e.Evaluated) ∧
      (digitalLoop B1).emergency_stop = false ∧
      ∃ r ∈ B1, r.uri = "emergency_stop" ∧ toBool r.state = false) ∧
    (∀ (s : cob_voltage_control_ros) (msg : List DigitalReading),
      (digitalPhidgetSignalsCallback { s with EM_stop_status_ := ST_EM_STOP }
        msg).EM_stop_status_ ≠ ST_EM_FREE) := by
  have hgB := (digitalLoop_got_message_iff B).mpr hB
  rw [run_snoc] at hfree
  have hsw : EM_switch (run conv (construct d0 cfg) pre).EM_stop_status_
      (digitalLoop B).emergency_stop = ST_EM_FREE := by
    rw [← callback_status_of_got _ _ hgB]
    exact hfree
  obtain ⟨hprev, hsig⟩ := EM_switch_eq_free _ _ hsw
  refine ⟨⟨hsig, foldl_cleared_has_reading B _ rfl hsig⟩, ?_, ?_⟩
  · rcases exists_last_evaluated pre with hnone | ⟨pre1, e, mid, heq, he, hmid⟩
    · have hstop := (run_before_evaluation conv d0 cfg pre hnone).1
      rw [hstop] at hprev
      rcases hprev with h | h <;> exact absurd h (by decide)
    · cases e with
      | analog m => exact absurd he (fun hf => hf)
      | tick => exact absurd he (fun hf => hf)
      | digital B1 =>
        have hg1 : (digitalLoop B1).got_message = true :=
          (digitalLoop_got_message_iff B1).mpr he
        have hrun : (run conv (construct d0 cfg) pre).EM_stop_status_
            = EM_switch (run conv (construct d0 cfg) pre1).EM_stop_status_
                (digitalLoop B1).emergency_stop := by
          have hsplit : pre = (pre1 ++ [Event.digital B1]) ++ mid := by
            rw [heq]
            simp
          rw [hsplit, run_append, (run_frame_of_not_evaluated conv _ mid hmid).1, run_snoc]
          exact callback_status_of_got _ _ hg1
        have hsig1 : (digitalLoop B1).emergency_stop = false := by
          rw [hrun] at hprev
          rcases hprev with h | h
          · exact (EM_switch_eq_free _ _ h).2
          · exact (EM_switch_eq_confirmed _ _ h).2
        exact ⟨pre1, B1, mid, heq, he, hmid, hsig1, foldl_cleared_has_reading B1 _ rfl hsig1⟩
  · intro s msg
    by_cases hg : (digitalLoop msg).got_message = true
    · rw [callback_status_of_got _ _ hg]
      intro h
      have hne0 : ST_EM_STOP ≠ ST_EM_FREE := by decide
      have hne2 : ST_EM_STOP ≠ ST_EM_CONFIRMED := by decide
      rcases (EM_switch_eq_free _ _ h).1 with h1 | h1
      · exact hne0 h1
      · exact hne2 h1
    · have hn : ∀ r ∈ msg, ¬ RecognizedDigital r.uri := fun r hr hu =>
        hg ((digitalLoop_got_message_iff msg).mpr ⟨r, hr, hu⟩)
      rw [callback_of_not_got _ msg hn]
      show ST_EM_STOP ≠ ST_EM_FREE
      decide

theorem C15_release_needs_two_cleared_witness :
    (run (fun d _ => ⟨d.out_pub_power_state_, d.in_phidget_current, d.in_phidget_voltage⟩)
        (construct defaultData defaultConfig)
        ([Event.digital [⟨"emergency_stop", 0⟩], Event.tick]
          ++ [Event.digital [⟨"emergency_stop", 0⟩]])).EM_stop_status_ = ST_EM_FREE ∧
    (digitalLoop [⟨"emergency_stop", 0⟩]).emergency_stop = false :=
  ⟨by decide,
   (C15_release_needs_two_cleared
    (fun d _ => ⟨d.out_pub_power_state_, d.in_phidget_current, d.in_phidget_voltage⟩)
    defaultData defaultConfig [Event.digital [⟨"emergency_stop", 0⟩], Event.tick]
    [⟨"emergency_stop", 0⟩] (by decide) (by decide)).1.1⟩

/-- C16: for every prior status FREE, STOP or CONFIRMED and every prior `scanner_stop`, after a
digital message whose effective stop signal is asserted (its last `emergency_stop` entry reads
true, or it has a recognised laser tag and no `emergency_stop` entry), the status is STOP, the
published `emergency_state` is STOP and `scanner_stop` is true. -/
theorem C16_asserted_signal_wins (s : cob_voltage_control_ros) (msg : List DigitalReading)
    (hs : s.EM_stop_status_ = ST_EM_FREE ∨ s.EM_stop_status_ = ST_EM_STOP ∨
      s.EM_stop_status_ = ST_EM_CONFIRMED)
    (h : (∃ pre r post, msg = pre ++ r :: post ∧ r.uri = "emergency_stop" ∧
            toBool r.state = true ∧ ∀ x ∈ post, x.uri ≠ "emergency_stop") ∨
         ((∃ r ∈ msg, r.uri = "em_stop_laser_rear" ∨ r.uri = "em_stop_laser_front") ∧
            ∀ r ∈ msg, r.uri ≠ "emergency_stop")) :
    (digitalPhidgetSignalsCallback s msg).EM_stop_status_ = ST_EM_STOP ∧
    (digitalPhidgetSignalsCallback s msg).component_data_.out_pub_em_stop_state_.emergency_state
      = ST_EM_STOP ∧
    (digitalPhidgetSignalsCallback s msg).component_data_.out_pub_em_stop_state_.scanner_stop
      = true := by
  have hloop : (digitalLoop msg).got_message = true ∧ (digitalLoop msg).emergency_stop = true := by
    rcases h with ⟨pre, r, post, heq, hr, hv, hpost⟩ | ⟨⟨r, hr, hu⟩, habsent⟩
    · constructor
      · rw [digitalLoop_got_message_iff]
        refine ⟨r, ?_, Or.inl hr⟩
        rw [heq]
        exact List.mem_append_right _ (List.mem_cons_self _ _)
      · rw [heq, digitalLoop_of_last_reading pre post r hr hpost, hv]
    · constructor
      · rw [digitalLoop_got_message_iff]
        exact ⟨r, hr, Or.inr hu⟩
      · unfold digitalLoop
        rw [foldl_emergency_stop_absent msg _ habsent]
        rfl
  have hsw : EM_switch s.EM_stop_status_ true = ST_EM_STOP := by
    rcases hs with h0 | h1 | h2
    · rw [h0]
      decide
    · rw [h1]
      decide
    · rw [h2]
      decide
  refine ⟨?_, ?_, ?_⟩
  · rw [callback_status_of_got _ _ hloop.1, hloop.2, hsw]
  · rw [callback_emergency_state_of_got _ _ hloop.1, hloop.2, hsw]
  · rw [callback_scanner_stop_of_got _ _ hloop.1, hloop.2, hsw]
    have : decide (ST_EM_STOP ≠ 0) = true := by decide
    rw [this, Bool.or_true]

theorem C16_asserted_signal_wins_witness :
    (digitalPhidgetSignalsCallback
        { (construct defaultData defaultConfig) with EM_stop_status_ := ST_EM_CONFIRMED }
        [⟨"emergency_stop", 0⟩, ⟨"emergency_stop", 1⟩,
          ⟨"em_stop_laser_rear", 1⟩]).EM_stop_status_ = ST_EM_STOP ∧
    (digitalPhidgetSignalsCallback
        { (construct defaultData defaultConfig) with EM_stop_status_ := ST_EM_FREE }
        [⟨"em_stop_laser_rear", 1⟩]).component_data_.out_pub_em_stop_state_.scanner_stop
      = true :=
  ⟨(C16_asserted_signal_wins
      { (construct defaultData defaultConfig) with EM_stop_status_ := ST_EM_CONFIRMED }
      [⟨"emergency_stop", 0⟩, ⟨"emergency_stop", 1⟩, ⟨"em_stop_laser_rear", 1⟩]
      (Or.inr (Or.inr rfl))
      (Or.inl ⟨[⟨"emergency_stop", 0⟩], ⟨"emergency_stop", 1⟩, [⟨"em_stop_laser_rear", 1⟩],
        rfl, rfl, by decide, by decide⟩)).1,
   (C16_asserted_signal_wins
      { (construct defaultData defaultConfig) with EM_stop_status_ := ST_EM_FREE }
      [⟨"em_stop_laser_rear", 1⟩] (Or.inl rfl)
      (Or.inr ⟨by decide, by decide⟩)).2.2⟩

/-- C17: in every object reached from the constructed one by analog messages, digital
messages and calls of `update`, `scanner_stop` is true if and only if at least one digital
message with a recognised tag has been evaluated so far; so from the first evaluated digital
message on it is true for the rest of the run, whatever the signals were. -/
theorem C17_scanner_stop_iff_evaluated
    (conv : cob_voltage_control_data → cob_voltage_control_config → PowerOutputs)
    (d0 : cob_voltage_control_data) (cfg : cob_voltage_control_config) (es : List Event) :
    (run conv (construct d0 cfg) es).component_data_.out_pub_em_stop_state_.scanner_stop = true
      ↔ ∃ e ∈ es, e.Evaluated := by
  induction es using List.reverseRecOn with
  | nil =>
    constructor
    · intro h
      exact absurd h (by simp [run, construct])
    · rintro ⟨e, he, _⟩
      cases he
  | append_singleton es e ih =>
    rw [run_snoc]
    by_cases he : e.Evaluated
    · constructor
      · intro _
        exact ⟨e, List.mem_append_right _ (List.mem_singleton_self e), he⟩
      · intro _
        by_cases hprev : ∃ x ∈ es, x.Evaluated
        · exact step_scanner_stop_latched conv _ e (ih.mpr hprev)
        · have hnone : ∀ x ∈ es, ¬ x.Evaluated := fun x hx hev => hprev ⟨x, hx, hev⟩
          have hstop := (run_before_evaluation conv d0 cfg es hnone).1
          cases e with
          | analog m => exact absurd he (fun hf => hf)
          | tick => exact absurd he (fun hf => hf)
          | digital B =>
            have hg : (digitalLoop B).got_message = true :=
              (digitalLoop_got_message_iff B).mpr he
            show (digitalPhidgetSignalsCallback _ B).component_data_.out_pub_em_stop_state_.scanner_stop
              = true
            rw [callback_scanner_stop_of_got _ _ hg, hstop]
            have hne : EM_switch ST_EM_STOP (digitalLoop B).emergency_stop ≠ 0 := by
              cases (digitalLoop B).emergency_stop <;> decide
            simp [hne]
    · rw [(step_frame_of_not_evaluated conv _ e he).2, ih]
      constructor
      · rintro ⟨x, hx, hev⟩
        exact ⟨x, List.mem_append_left _ hx, hev⟩
      · rintro ⟨x, hx, hev⟩
        rcases List.mem_append.mp hx with hx | hx
        · exact ⟨x, hx, hev⟩
        · rw [List.mem_singleton.mp hx] at hev
          exact absurd hev he

/-- Two messages with the same tags and the same `emergency_stop` values run the loop to the
same `emergency_stop` and `got_message`. -/
theorem foldl_digital_congr (m1 m2 : List DigitalReading)
    (h : List.Forall₂ (fun a b : DigitalReading =>
      a.uri = b.uri ∧ (a.uri = "emergency_stop" → toBool a.state = toBool b.state)) m1 m2)
    (l1 l2 : DigitalLocals) (he : l1.emergency_stop = l2.emergency_stop)
    (hg : l1.got_message = l2.got_message) :
    (m1.foldl digitalLoopBody l1).emergency_stop = (m2.foldl digitalLoopBody l2).emergency_stop ∧
    (m1.foldl digitalLoopBody l1).got_message = (m2.foldl digitalLoopBody l2).got_message := by
  induction h generalizing l1 l2 with
  | nil => exact ⟨he, hg⟩
  | @cons a b t1 t2 hab _ ih =>
    simp only [List.foldl_cons]
    apply ih
    · by_cases hu : a.uri = "emergency_stop"
      · have hub : b.uri = "emergency_stop" := hab.1 ▸ hu
        rw [digitalLoopBody_emergency_stop_self l1 a hu,
          digitalLoopBody_emergency_stop_self l2 b hub]
        exact hab.2 hu
      · have hub : b.uri ≠ "emergency_stop" := hab.1 ▸ hu
        rw [digitalLoopBody_emergency_stop_other l1 a hu,
          digitalLoopBody_emergency_stop_other l2 b hub]
        exact he
    · rw [digitalLoopBody_got_message, digitalLoopBody_got_message, hg, hab.1]

/-- C18: two digital messages with the same sequence of tags that agree on every
`emergency_stop` entry, and may differ in the values of their `em_stop_laser_rear` and
`em_stop_laser_front` entries, give the same status, the same published `emergency_state`
and the same `scanner_stop`. -/
theorem C18_laser_values_irrelevant (s : cob_voltage_control_ros) (m1 m2 : List DigitalReading)
    (h : List.Forall₂ (fun a b : DigitalReading =>
      a.uri = b.uri ∧ (a.uri = "emergency_stop" → toBool a.state = toBool b.state)) m1 m2) :
    (digitalPhidgetSignalsCallback s m1).EM_stop_status_
      = (digitalPhidgetSignalsCallback s m2).EM_stop_status_ ∧
    (digitalPhidgetSignalsCallback s m1).component_data_.out_pub_em_stop_state_.emergency_state
      = (digitalPhidgetSignalsCallback s m2).component_data_.out_pub_em_stop_state_.emergency_state
      ∧
    (digitalPhidgetSignalsCallback s m1).component_data_.out_pub_em_stop_state_.scanner_stop
      = (digitalPhidgetSignalsCallback s m2).component_data_.out_pub_em_stop_state_.scanner_stop
      := by
  obtain ⟨hes, hgm⟩ := foldl_digital_congr m1 m2 h digitalLocalsInit digitalLocalsInit rfl rfl
  have hes2 : (digitalLoop m1).emergency_stop = (digitalLoop m2).emergency_stop := hes
  have hgm2 : (digitalLoop m1).got_message = (digitalLoop m2).got_message := hgm
  by_cases hg : (digitalLoop m1).got_message = true
  · have hg2 : (digitalLoop m2).got_message = true := hgm2 ▸ hg
    rw [callback_status_of_got _ _ hg, callback_status_of_got _ _ hg2,
      callback_emergency_state_of_got _ _ hg, callback_emergency_state_of_got _ _ hg2,
      callback_scanner_stop_of_got _ _ hg, callback_scanner_stop_of_got _ _ hg2, hes2]
    exact ⟨rfl, rfl, rfl⟩
  · have hg2 : ¬ (digitalLoop m2).got_message = true := hgm2 ▸ hg
    have hn1 : ∀ r ∈ m1, ¬ RecognizedDigital r.uri := fun r hr hu =>
      hg ((digitalLoop_got_message_iff m1).mpr ⟨r, hr, hu⟩)
    have hn2 : ∀ r ∈ m2, ¬ RecognizedDigital r.uri := fun r hr hu =>
      hg2 ((digitalLoop_got_message_iff m2).mpr ⟨r, hr, hu⟩)
    rw [callback_of_not_got s m1 hn1, callback_of_not_got s m2 hn2]
    exact ⟨rfl, rfl, rfl⟩

theorem C18_laser_values_irrelevant_witness :
    (digitalPhidgetSignalsCallback
        (digitalPhidgetSignalsCallback (construct defaultData defaultConfig)
          [⟨"emergency_stop", 0⟩])
        [⟨"em_stop_laser_rear", 0⟩, ⟨"emergency_stop", 0⟩,
          ⟨"em_stop_laser_front", 1⟩]).EM_stop_status_
      = (digitalPhidgetSignalsCallback
        (digitalPhidgetSignalsCallback (construct defaultData defaultConfig)
          [⟨"emergency_stop", 0⟩])
        [⟨"em_stop_laser_rear", 1⟩, ⟨"emergency_stop", 0⟩,
          ⟨"em_stop_laser_front", 0⟩]).EM_stop_status_ :=
  (C18_laser_values_irrelevant
    (digitalPhidgetSignalsCallback (construct defaultData defaultConfig)
      [⟨"emergency_stop", 0⟩])
    [⟨"em_stop_laser_rear", 0⟩, ⟨"emergency_stop", 0⟩, ⟨"em_stop_laser_front", 1⟩]
    [⟨"em_stop_laser_rear", 1⟩, ⟨"emergency_stop", 0⟩, ⟨"em_stop_laser_front", 0⟩]
    (List.Forall₂.cons ⟨rfl, by decide⟩
      (List.Forall₂.cons ⟨rfl, by decide⟩
        (List.Forall₂.cons ⟨rfl, by decide⟩ List.Forall₂.nil)))).1

/-! ## Monotonicity of the battery classifier -/

/-- C19: the battery classifier is monotone: for rational capacities x <= y the level returned
for y (0 = OK, 1 = LOW, 2 = CRITICAL) is at most the level returned for x. -/
theorem C19_battery_monotone (x y : ℚ) (h : x ≤ y) :
    (diagnostics_battery y).1 ≤ (diagnostics_battery x).1 := by
  unfold diagnostics_battery
  by_cases hy15 : y > 15
  · simp [hy15]
  · have hx15 : ¬ x > 15 := fun hx => hy15 (lt_of_lt_of_le hx h)
    by_cases hy10 : y > 10
    · by_cases hx10 : x > 10 <;> simp [hy15, hx15, hy10, hx10]
    · have hx10 : ¬ x > 10 := fun hx => hy10 (lt_of_lt_of_le hx h)
      simp [hy15, hx15, hy10, hx10]

theorem C19_battery_monotone_witness :
    (diagnostics_battery 20).1 ≤ (diagnostics_battery 12).1 :=
  C19_battery_monotone 12 20 (by norm_num)

end cob_voltage_control
